import Mathlib

/-!
Shallow embedding of `sqlrender.go` (package sqlrender): a dialect-aware SQL
argument binder, identifier quoter, and template-rendering pipeline.
Definitions follow the Go source; the external template-expansion engine
(Go text/template) is not part of the repository and is modelled from the
specification where needed.
-/

set_option maxRecDepth 4000

/-- The `Dialect` string type with its six built-in constants
(`DialectPostgres` .. `DialectOracle`). The Go type is a string; only these
six constants are ever distinguished by the code, so we embed it as an
enumeration (an unknown dialect string behaves like the `default` branches,
which is the same behaviour `mysql`/`sqlite`/`snowflake` get; those branches
are covered by the three corresponding constructors). -/
inductive Dialect where
  | postgres
  | mysql
  | sqlite
  | sqlserver
  | snowflake
  | oracle
deriving DecidableEq, Repr

/-- A Go `any` value as classified by `reflect` inside `QueryArgs.Bind`:
`nilInterface` is the untyped nil interface (for which `reflect.ValueOf`
yields an invalid `Value`); `collection` is any value whose reflect `Kind` is
`Slice` or `Array` (a typed nil slice is a valid `Value` of `Kind` `Slice`
with length 0, so it is `collection []`); the remaining constructors are
scalar values hitting the `default` branch. -/
inductive GoVal where
  | nilInterface
  | collection (elems : List GoVal)
  | str (s : String)
  | int (n : Int)
  | bool (b : Bool)

/-- True for values hitting the `default` (scalar) branch of `Bind`:
neither the untyped nil interface nor a slice/array. -/
def GoVal.isScalar : GoVal → Bool
  | .nilInterface => false
  | .collection _ => false
  | _ => true

/-- `QueryArgs` accumulates bound arguments together with the dialect. -/
structure QueryArgs where
  args : List GoVal
  dialect : Dialect

/-- `NewQueryArgs` returns a binder with no arguments yet. -/
def NewQueryArgs (dialect : Dialect) : QueryArgs :=
  { args := [], dialect := dialect }

/-- Go `strings.Join(elems, sep)`. -/
def stringsJoin (elems : List String) (sep : String) : String :=
  match elems with
  | [] => ""
  | x :: rest => rest.foldl (fun acc e => acc ++ sep ++ e) x

/-- `QueryArgs.placeholderFor(n)`: the placeholder text for 1-based
position `n`, depending only on the dialect and `n`. -/
def placeholderFor (d : Dialect) (n : Nat) : String :=
  match d with
  | .postgres => "$" ++ toString n
  | .sqlserver => "@p" ++ toString n
  | .oracle => ":" ++ toString n
  | _ => "?"

/-- The loop body of the slice/array branch of `Bind`: for each element in
order, append it to `args` and record `placeholderFor(len(args))` computed
from the length just after the append. Returns the updated binder and the
placeholder list. -/
def bindElems : QueryArgs → List GoVal → QueryArgs × List String
  | qa, [] => (qa, [])
  | qa, v :: rest =>
    let qa1 : QueryArgs := { qa with args := qa.args ++ [v] }
    let p := placeholderFor qa1.dialect qa1.args.length
    let (qa2, ps) := bindElems qa1 rest
    (qa2, p :: ps)

/-- `QueryArgs.Bind(arg)`: stores the value and returns placeholder text.
Untyped nil appends a nil entry and returns one placeholder; slices/arrays
of length 0 return `(NULL)` appending nothing, and of length n > 0 expand
into a parenthesized comma-and-space-joined placeholder list; any other
value is appended as-is with one placeholder. State passing makes the Go
mutation of `qa.args` explicit. -/
def QueryArgs.Bind (qa : QueryArgs) (arg : GoVal) : QueryArgs × String :=
  match arg with
  | .nilInterface =>
    let qa1 : QueryArgs := { qa with args := qa.args ++ [GoVal.nilInterface] }
    (qa1, placeholderFor qa1.dialect qa1.args.length)
  | .collection elems =>
    if elems.length = 0 then
      (qa, "(NULL)")
    else
      let (qa1, ps) := bindElems qa elems
      (qa1, "(" ++ stringsJoin ps ", " ++ ")")
  | v =>
    let qa1 : QueryArgs := { qa with args := qa.args ++ [v] }
    (qa1, placeholderFor qa1.dialect qa1.args.length)

/-- One character of the class `[A-Za-z0-9._]` from `identifierPattern`. -/
def isIdentChar (c : Char) : Bool :=
  c.isAlpha || c.isDigit || c = '.' || c = '_'

/-- The anchored regular expression `identifierPattern`
(`^[A-Za-z0-9._]+$`): at least one character, all in the class. -/
def identifierPattern (s : String) : Bool :=
  decide (s.data ≠ []) && s.data.all isIdentChar

/-- `QueryArgs.quoteIdentifier(id)`: quote one segment per dialect. -/
def quoteIdentifier (d : Dialect) (id : String) : String :=
  match d with
  | .postgres | .oracle => "\"" ++ id ++ "\""
  | .sqlserver => "[" ++ id ++ "]"
  | _ => "`" ++ id ++ "`"

/-- Helper for `strings.Split(s, ".")`: scan the characters, cutting at each
dot; `acc` holds the current segment reversed. -/
def splitDotAux : List Char → List Char → List String
  | [], acc => [String.mk acc.reverse]
  | c :: rest, acc =>
    if c = '.' then String.mk acc.reverse :: splitDotAux rest []
    else splitDotAux rest (c :: acc)

/-- Go `strings.Split(s, ".")`. -/
def splitDot (s : String) : List String :=
  splitDotAux s.data []

/-- The Go `%q` rendering of an identifier string as used in the messages of
this package (the identifiers and paths reaching it contain no characters
that `%q` would escape, so quoting is plain). -/
def goQuote (s : String) : String :=
  "\"" ++ s ++ "\""

/-- Outcome of `QueryArgs.Identifier`: either a returned string or a Go
panic carrying the panic message. -/
inductive IdentResult where
  | ok (s : String)
  | panicked (msg : String)

/-- `QueryArgs.Identifier(name)`: non-strings and the empty string yield
`""`; a string failing `identifierPattern` panics with a message carrying
the offending text; otherwise the string is split on `.`, each segment
quoted per dialect, and rejoined with `.`. The method never writes
`qa.args`, so the returned state is the input state. -/
def QueryArgs.Identifier (qa : QueryArgs) (name : GoVal) : QueryArgs × IdentResult :=
  match name with
  | .str s =>
    if s = "" then (qa, .ok "")
    else if identifierPattern s then
      (qa, .ok (stringsJoin ((splitDot s).map (quoteIdentifier qa.dialect)) "."))
    else
      (qa, .panicked ("sqlrender: invalid identifier " ++ goQuote s))
  | _ => (qa, .ok "")

example : ((NewQueryArgs .postgres).Bind (.int 1)).2 = "$1" := by decide
example : ((NewQueryArgs .sqlserver).Bind (.int 1)).2 = "@p1" := by decide
example : ((NewQueryArgs .oracle).Bind (.int 1)).2 = ":1" := by decide
example : ((NewQueryArgs .mysql).Bind (.int 1)).2 = "?" := by decide
example :
    ((NewQueryArgs .postgres).Bind (.collection [.int 4, .int 5])).2
      = "($1, $2)" := by decide
example : ((NewQueryArgs .postgres).Bind (.collection [])).2 = "(NULL)" := by
  decide
example :
    ((NewQueryArgs .postgres).Identifier (.str "public.users")).2
      = .ok "\"public\".\"users\"" := by rfl
example :
    ((NewQueryArgs .sqlserver).Identifier (.str "dbo.People")).2
      = .ok "[dbo].[People]" := by rfl

/-- An entry of a `template.FuncMap`: the two fixed entries are the fresh
binder methods `qa.Bind` and `qa.Identifier` (interpreted against the
threaded binder state during execution); `custom` is an opaque
caller-registered function, which may return a value or an error. -/
inductive TemplFunc where
  | bindFn
  | identifierFn
  | custom (f : GoVal → Except String String)

/-- Go map assignment `m[k] = v` on an association-list model of a map:
overwrite the entry for `k` when present, otherwise add one. -/
def mapSet (m : List (String × TemplFunc)) (k : String) (v : TemplFunc) :
    List (String × TemplFunc) :=
  if m.any (fun p => p.1 = k) then
    m.map (fun p => if p.1 = k then (k, v) else p)
  else
    m ++ [(k, v)]

/-- The function-table construction of `Renderer.FromStringWithDialect`:
start from the literal `FuncMap` with the two fixed entries `bind` and
`identifier`, then loop over `r.customFuncs` assigning each entry. -/
def buildFuncMap (customFuncs : List (String × TemplFunc)) :
    List (String × TemplFunc) :=
  customFuncs.foldl (fun m p => mapSet m p.1 p.2)
    [("bind", TemplFunc.bindFn), ("identifier", TemplFunc.identifierFn)]

/-- The `Renderer` configuration. `customFuncs` is an association list with
Go-map overwrite semantics (`AddFunc` uses `mapSet`). -/
structure Renderer where
  searchPaths : List String
  defaultDialect : Dialect
  customFuncs : List (String × TemplFunc)

/-- `NewRenderer`: zero-value search paths, the given default dialect, and
an empty custom-function map. -/
def NewRenderer (defaultDialect : Dialect) : Renderer :=
  { searchPaths := [], defaultDialect := defaultDialect, customFuncs := [] }

/-- `Renderer.AddFunc(name, fn)`. -/
def Renderer.AddFunc (r : Renderer) (name : String) (fn : TemplFunc) :
    Renderer :=
  { r with customFuncs := mapSet r.customFuncs name fn }

/-- `Renderer.AddSearchPath(path)`. -/
def Renderer.AddSearchPath (r : Renderer) (path : String) : Renderer :=
  { r with searchPaths := r.searchPaths ++ [path] }

/-- An argument expression of a template call action: a literal value or a
field reference `.Name` looked up in the render data. -/
inductive TmplExpr where
  | lit (v : GoVal)
  | field (name : String)

/-- A node of a parsed template: literal text, or a call
`\x7b\x7b fname arg \x7d\x7d` to a function of the table whose result text
is substituted in place. -/
inductive TmplNode where
  | text (s : String)
  | call (fname : String) (arg : TmplExpr)

/-- Evaluate a template argument expression against the render data; a
missing key yields the untyped nil interface, as indexing a Go
`map[string]any` does. -/
def evalExpr (data : List (String × GoVal)) : TmplExpr → GoVal
  | .lit v => v
  | .field n => ((data.find? (fun p => p.1 = n)).map Prod.snd).getD .nilInterface

/-- Intermediate state of template execution: normal completion with the
threaded binder and accumulated text, a template execution error, or a
propagating panic. -/
inductive ExecStep where
  | ok (qa : QueryArgs) (acc : String)
  | err (msg : String)
  | panicked (msg : String)

/-- Modelled from the spec: the external template-expansion engine
(Go text/template `Execute`), which is not part of this repository. Per the
spec it substitutes each node in order, calling back into the function
table; a failure returned by a template function is surfaced as this
execution's failure with no retry, and a panic-class failure from
`identifier` aborts the render and propagates unchanged. -/
def execNodes (fm : List (String × TemplFunc)) (data : List (String × GoVal)) :
    List TmplNode → QueryArgs → String → ExecStep
  | [], qa, acc => .ok qa acc
  | .text s :: rest, qa, acc => execNodes fm data rest qa (acc ++ s)
  | .call f e :: rest, qa, acc =>
    match (fm.find? (fun p => p.1 = f)).map Prod.snd with
    | none => .err ("function " ++ goQuote f ++ " not defined")
    | some .bindFn =>
      let (qa2, s) := qa.Bind (evalExpr data e)
      execNodes fm data rest qa2 (acc ++ s)
    | some .identifierFn =>
      match qa.Identifier (evalExpr data e) with
      | (qa2, .ok s) => execNodes fm data rest qa2 (acc ++ s)
      | (_, .panicked m) => .panicked m
    | some (.custom fn) =>
      match fn (evalExpr data e) with
      | .ok s => execNodes fm data rest qa (acc ++ s)
      | .error m => .err m

/-- The observable outcome of `Renderer.FromStringWithDialect`: either the
Go triple `(text, args, error)` is returned (`args` is `none` for a Go nil
slice), or a panic escapes the call. -/
inductive RenderOutcome where
  | returned (text : String) (args : Option (List GoVal)) (error : Option String)
  | panicked (msg : String)

/-- `Renderer.FromStringWithDialect(s, data, dialect)` on a pre-parsed
template (parsing belongs to the external engine, so the template source is
given as a parse result): nil data becomes an empty map, a fresh binder is
created, the function table is built from the custom functions and the two
fixed entries, and the engine expands the nodes; a parse or execution error
returns `("", nil, err)`, success returns the text and the binder final
argument list. -/
def Renderer.FromStringWithDialect (r : Renderer)
    (parsed : Except String (List TmplNode))
    (data : Option (List (String × GoVal))) (dialect : Dialect) :
    RenderOutcome :=
  let d := data.getD []
  let qa := NewQueryArgs dialect
  let funcMap := buildFuncMap r.customFuncs
  match parsed with
  | .error e => .returned "" none (some e)
  | .ok nodes =>
    match execNodes funcMap d nodes qa "" with
    | .ok qa2 acc => .returned acc (some qa2.args) none
    | .err m => .returned "" none (some m)
    | .panicked m => .panicked m

/-- Go `filepath.Join(dir, name)` for the clean relative components used
here (no dot segments or duplicate separators, so joining is separator
insertion). -/
def goPathJoin (dir name : String) : String :=
  dir ++ "/" ++ name

/-- Go `fmt` `%v` rendering of a `[]string`, as used in the not-found error
of `findTemplateFile`. -/
def goStringSliceV (paths : List String) : String :=
  "[" ++ stringsJoin paths " " ++ "]"

/-- The search loop of `Renderer.findTemplateFile`: try each directory in
order, returning the first joined path that exists in the filesystem `fs`
(modelled as the list of paths for which `os.Stat` succeeds). -/
def searchLoop (fs : List String) (name : String) :
    List String → Option String
  | [] => none
  | dir :: rest =>
    let full := goPathJoin dir name
    if full ∈ fs then some full else searchLoop fs name rest

/-- `Renderer.findTemplateFile(name)` against a filesystem `fs` (the list
of paths where `os.Stat` succeeds): the name itself if it exists, else the
first existing join with a search path, else an error naming the template
and the search-path list. -/
def Renderer.findTemplateFile (fs : List String) (r : Renderer)
    (name : String) : Except String String :=
  if name ∈ fs then .ok name
  else
    match searchLoop fs name r.searchPaths with
    | some full => .ok full
    | none =>
      .error ("sqlrender: template " ++ goQuote name ++
        " not found in search paths: " ++ goStringSliceV r.searchPaths)

example :
    ((NewRenderer .mysql).FromStringWithDialect
      (.ok [.text "SELECT ", .call "identifier" (.lit (.str "public.users")),
            .text " WHERE id IN ", .call "bind" (.field "IDs")])
      (some [("IDs", .collection [.int 1, .int 2])]) .postgres)
      = .returned "SELECT \"public\".\"users\" WHERE id IN ($1, $2)"
          (some [.int 1, .int 2]) none := by rfl

example :
    (Renderer.findTemplateFile ["dir/q.sql"]
      ((NewRenderer .mysql).AddSearchPath "dir") "q.sql")
      = .ok "dir/q.sql" := by rfl

example :
    (Renderer.findTemplateFile []
      ((NewRenderer .mysql).AddSearchPath "missing_dir") "missing.sql")
      = .error
        "sqlrender: template \"missing.sql\" not found in search paths: [missing_dir]" := by
  rfl

/-- Verification driver: call `Bind` sequentially on each value of the
list, collecting the returned placeholder strings in call order. -/
def bindSeq : QueryArgs → List GoVal → QueryArgs × List String
  | qa, [] => (qa, [])
  | qa, v :: rest =>
    let (qa1, p) := qa.Bind v
    let (qa2, ps) := bindSeq qa1 rest
    (qa2, p :: ps)

/-- The numeric-positional placeholder marker of the three dialects whose
placeholders encode the 1-based position as a numeric suffix. -/
def positionalSigil : Dialect → String
  | .postgres => "$"
  | .sqlserver => "@p"
  | .oracle => ":"
  | _ => ""

lemma bindElems_spec (elems : List GoVal) : ∀ qa : QueryArgs,
    bindElems qa elems =
      ({ qa with args := qa.args ++ elems },
        (List.range' (qa.args.length + 1) elems.length).map
          (placeholderFor qa.dialect)) := by
  induction elems with
  | nil => intro qa; simp [bindElems]
  | cons v rest ih =>
    intro qa
    simp only [bindElems, ih]
    refine Prod.ext ?_ ?_
    · simp
    · simp [List.range'_succ]

lemma bind_scalar (qa : QueryArgs) (v : GoVal) (hv : v.isScalar = true) :
    qa.Bind v =
      ({ qa with args := qa.args ++ [v] },
        placeholderFor qa.dialect (qa.args.length + 1)) := by
  cases v <;> simp_all [GoVal.isScalar, QueryArgs.Bind]

lemma bindSeq_scalar (vals : List GoVal) : ∀ qa : QueryArgs,
    (∀ v ∈ vals, v.isScalar = true) →
    bindSeq qa vals =
      ({ qa with args := qa.args ++ vals },
        (List.range' (qa.args.length + 1) vals.length).map
          (placeholderFor qa.dialect)) := by
  induction vals with
  | nil => intro qa _; simp [bindSeq]
  | cons v rest ih =>
    intro qa hv
    have hsc : v.isScalar = true := hv v (by simp)
    have hrest : ∀ w ∈ rest, w.isScalar = true := fun w hw => hv w (by simp [hw])
    simp only [bindSeq, bind_scalar qa v hsc, ih _ hrest]
    refine Prod.ext ?_ ?_
    · simp
    · simp [List.range'_succ]

/-- C1. For the dialects with positional placeholder syntax (Postgres,
SQL-Server, Oracle), binding k scalar values sequentially yields the
placeholders whose numeric suffixes are exactly 1..k in call order — the
dialect marker followed by the decimal position — and the binder final
argument list is exactly those k values in order. -/
theorem C1_bind_scalars_positional (d : Dialect) (vals : List GoVal)
    (hd : d = .postgres ∨ d = .sqlserver ∨ d = .oracle)
    (hv : ∀ v ∈ vals, v.isScalar = true) :
    (bindSeq (NewQueryArgs d) vals).2 =
      (List.range' 1 vals.length).map (fun n => positionalSigil d ++ toString n)
    ∧ (bindSeq (NewQueryArgs d) vals).1.args = vals := by
  have h := bindSeq_scalar vals (NewQueryArgs d) hv
  rw [h]
  have hph : ∀ n : Nat, placeholderFor d n = positionalSigil d ++ toString n := by
    intro n
    rcases hd with h1 | h1 | h1 <;> subst h1 <;> rfl
  constructor
  · simp [NewQueryArgs, hph]
  · simp [NewQueryArgs]

theorem C1_witness :
    (bindSeq (NewQueryArgs .postgres) [GoVal.int 7, GoVal.str "x"]).2 =
      (List.range' 1 2).map (fun n => positionalSigil .postgres ++ toString n)
    ∧ (bindSeq (NewQueryArgs .postgres) [GoVal.int 7, GoVal.str "x"]).1.args =
      [GoVal.int 7, GoVal.str "x"] :=
  C1_bind_scalars_positional .postgres [GoVal.int 7, GoVal.str "x"]
    (Or.inl rfl) (by decide)

/-- C2. For every slice or array value: length 0 yields exactly the literal
text `(NULL)` with nothing appended; length n > 0 appends each element in
collection order and yields a parenthesized comma-and-space-joined list of
the n placeholders at the contiguous ascending positions continuing from
the current running count. -/
theorem C2_bind_collection (qa : QueryArgs) (elems : List GoVal) :
    (elems.length = 0 → qa.Bind (.collection elems) = (qa, "(NULL)"))
    ∧ (elems.length ≠ 0 →
        (qa.Bind (.collection elems)).1.args = qa.args ++ elems
        ∧ (qa.Bind (.collection elems)).2 =
            "(" ++ stringsJoin
              ((List.range' (qa.args.length + 1) elems.length).map
                (placeholderFor qa.dialect)) ", " ++ ")") := by
  constructor
  · intro h
    simp [QueryArgs.Bind, h]
  · intro h
    simp only [QueryArgs.Bind, if_neg h, bindElems_spec]
    exact ⟨trivial, trivial⟩

theorem C2_witness :
    (({ args := [GoVal.int 9], dialect := .postgres } : QueryArgs).Bind
        (.collection [GoVal.int 4, GoVal.int 5])).1.args =
      [GoVal.int 9] ++ [GoVal.int 4, GoVal.int 5]
    ∧ (({ args := [GoVal.int 9], dialect := .postgres } : QueryArgs).Bind
        (.collection [GoVal.int 4, GoVal.int 5])).2 =
      "(" ++ stringsJoin
        ((List.range' 2 2).map (placeholderFor .postgres)) ", " ++ ")" :=
  (C2_bind_collection { args := [GoVal.int 9], dialect := .postgres }
    [GoVal.int 4, GoVal.int 5]).2 (by simp)

/-- C10. Only the untyped nil interface is bound as a null scalar: it
appends one nil entry and returns the single placeholder at the next
position; a typed nil slice is a valid reflect value of slice kind with
length 0, hence a collection of length 0, so it returns `(NULL)` and
appends nothing. -/
theorem C10_nil_vs_empty_collection (qa : QueryArgs) :
    qa.Bind .nilInterface =
      ({ qa with args := qa.args ++ [GoVal.nilInterface] },
        placeholderFor qa.dialect (qa.args.length + 1))
    ∧ qa.Bind (.collection []) = (qa, "(NULL)") := by
  constructor <;> simp [QueryArgs.Bind]

theorem C10_witness :
    ({ args := [GoVal.int 1], dialect := .postgres } : QueryArgs).Bind
        .nilInterface =
      ({ args := [GoVal.int 1, GoVal.nilInterface], dialect := .postgres },
        placeholderFor .postgres 2)
    ∧ ({ args := [GoVal.int 1], dialect := .postgres } : QueryArgs).Bind
        (.collection []) =
      ({ args := [GoVal.int 1], dialect := .postgres }, "(NULL)") :=
  C10_nil_vs_empty_collection { args := [GoVal.int 1], dialect := .postgres }

/-- C7 counterexample. Under the Snowflake dialect, `Bind` returns the
repeated marker `?`, not the Postgres-style positional placeholder `$1`:
Snowflake is handled by the default branch of `placeholderFor`. -/
theorem C7_counterexample :
    ((NewQueryArgs .snowflake).Bind (.int 42)).2 = "?"
    ∧ ((NewQueryArgs .snowflake).Bind (.int 42)).2 ≠ "$1"
    ∧ placeholderFor .snowflake 1 = "?" := by
  refine ⟨rfl, ?_, rfl⟩
  decide

/-- C7 amended. Under the Snowflake dialect, `Bind` at every position
returns the single repeated marker `?` (Snowflake belongs with MySQL and
SQLite in the repeated-marker row, not with the positional row). -/
theorem C7_amended_snowflake (qa : QueryArgs) (v : GoVal) (n : Nat)
    (h : qa.dialect = .snowflake) (hv : v.isScalar = true) :
    placeholderFor .snowflake n = "?" ∧ (qa.Bind v).2 = "?" := by
  refine ⟨rfl, ?_⟩
  rw [bind_scalar qa v hv]
  simp [h, placeholderFor]

theorem C7_witness :
    placeholderFor .snowflake 5 = "?"
    ∧ ((NewQueryArgs .snowflake).Bind (.int 1)).2 = "?" :=
  C7_amended_snowflake (NewQueryArgs .snowflake) (.int 1) 5 rfl (by decide)

/-- C5. For every non-empty name matching the identifier character class,
`Identifier` splits the name on `.`, quotes each segment per dialect, and
rejoins with `.`; in particular `public.users` yields the double-quote,
bracket, and backtick forms under the corresponding dialects. -/
theorem C5_identifier_quoting (d : Dialect) (s : String) (h1 : s ≠ "")
    (h2 : identifierPattern s = true) :
    (NewQueryArgs d).Identifier (.str s) =
      (NewQueryArgs d,
        .ok (stringsJoin ((splitDot s).map (quoteIdentifier d)) "."))
    ∧ ((NewQueryArgs .postgres).Identifier (.str "public.users")).2 =
        .ok "\"public\".\"users\""
    ∧ ((NewQueryArgs .oracle).Identifier (.str "public.users")).2 =
        .ok "\"public\".\"users\""
    ∧ ((NewQueryArgs .sqlserver).Identifier (.str "public.users")).2 =
        .ok "[public].[users]"
    ∧ ((NewQueryArgs .mysql).Identifier (.str "public.users")).2 =
        .ok "`public`.`users`"
    ∧ ((NewQueryArgs .sqlite).Identifier (.str "public.users")).2 =
        .ok "`public`.`users`"
    ∧ ((NewQueryArgs .snowflake).Identifier (.str "public.users")).2 =
        .ok "`public`.`users`" := by
  refine ⟨?_, rfl, rfl, rfl, rfl, rfl, rfl⟩
  simp [QueryArgs.Identifier, h1, h2, NewQueryArgs]

theorem C5_witness :
    (NewQueryArgs .postgres).Identifier (.str "a.b") =
      (NewQueryArgs .postgres,
        .ok (stringsJoin ((splitDot "a.b").map (quoteIdentifier .postgres)) "."))
    ∧ ((NewQueryArgs .postgres).Identifier (.str "public.users")).2 =
        .ok "\"public\".\"users\""
    ∧ (NewQueryArgs .postgres).Identifier (.str "a.b") =
      (NewQueryArgs .postgres, .ok "\"a\".\"b\"") := by
  have h := C5_identifier_quoting .postgres "a.b" (by decide) (by decide)
  exact ⟨h.1, h.2.1, h.1⟩

/-- C6. `Identifier` never modifies the bound-argument list, and on a
non-string input or the empty string it returns the empty string without
aborting. -/
theorem C6_identifier_pure (qa : QueryArgs) (name : GoVal) :
    (qa.Identifier name).1 = qa
    ∧ ((∀ s, name ≠ .str s) → qa.Identifier name = (qa, .ok ""))
    ∧ (name = .str "" → qa.Identifier name = (qa, .ok "")) := by
  refine ⟨?_, ?_, ?_⟩
  · cases name <;> simp only [QueryArgs.Identifier]
    case str s =>
      split
      · rfl
      · split <;> rfl
  · intro h
    cases name with
    | str s => exact absurd rfl (h s)
    | nilInterface => rfl
    | collection elems => rfl
    | int n => rfl
    | bool b => rfl
  · intro h
    subst h
    rfl

theorem C6_witness :
    ((NewQueryArgs .mysql).Identifier (.int 123)).1 = NewQueryArgs .mysql
    ∧ (NewQueryArgs .mysql).Identifier (.int 123) = (NewQueryArgs .mysql, .ok "")
    ∧ (NewQueryArgs .mysql).Identifier (.str "") = (NewQueryArgs .mysql, .ok "") :=
  ⟨(C6_identifier_pure (NewQueryArgs .mysql) (.int 123)).1,
    (C6_identifier_pure (NewQueryArgs .mysql) (.int 123)).2.1
      (fun _ h => GoVal.noConfusion h),
    (C6_identifier_pure (NewQueryArgs .mysql) (.str "")).2.2 rfl⟩

lemma overwrite_find (m : List (String × TemplFunc)) (k : String)
    (v : TemplFunc) :
    ((m.map (fun p => if p.1 = k then (k, v) else p)).find?
        (fun p => p.1 = k)).map Prod.snd =
      if m.any (fun p => p.1 = k) then some v else none := by
  induction m with
  | nil => rfl
  | cons p m ih =>
    rw [List.map_cons]
    by_cases hp : p.1 = k
    · rw [if_pos hp, List.find?_cons_of_pos _ (by simp)]
      simp [List.any_cons, hp]
    · rw [if_neg hp, List.find?_cons_of_neg _ (by simp [hp]), ih]
      have hd : decide (p.1 = k) = false := by simp [hp]
      rw [List.any_cons, hd, Bool.false_or]

lemma overwrite_find_other (m : List (String × TemplFunc)) (k k2 : String)
    (v : TemplFunc) (h : k2 ≠ k) :
    (m.map (fun p => if p.1 = k then (k, v) else p)).find?
        (fun p => p.1 = k2) =
      m.find? (fun p => p.1 = k2) := by
  have hk : ¬(k = k2) := fun hh => h hh.symm
  induction m with
  | nil => rfl
  | cons p m ih =>
    rw [List.map_cons]
    by_cases hp : p.1 = k
    · have hp2 : ¬(p.1 = k2) := by rw [hp]; exact hk
      rw [if_pos hp, List.find?_cons_of_neg _ (by simp [hk]),
        List.find?_cons_of_neg _ (by simp [hp2]), ih]
    · by_cases hq : p.1 = k2
      · rw [if_neg hp, List.find?_cons_of_pos _ (by simp [hq]),
          List.find?_cons_of_pos _ (by simp [hq])]
      · rw [if_neg hp, List.find?_cons_of_neg _ (by simp [hq]),
          List.find?_cons_of_neg _ (by simp [hq]), ih]

lemma find_none_of_any_false (m : List (String × TemplFunc)) (k : String)
    (h : m.any (fun p => p.1 = k) = false) :
    m.find? (fun p => p.1 = k) = none := by
  induction m with
  | nil => rfl
  | cons p m ih =>
    simp only [List.any_cons, Bool.or_eq_false_iff] at h
    rw [List.find?_cons_of_neg _ (by simp [h.1]), ih h.2]

lemma mapSet_find_self (m : List (String × TemplFunc)) (k : String)
    (v : TemplFunc) :
    ((mapSet m k v).find? (fun p => p.1 = k)).map Prod.snd = some v := by
  unfold mapSet
  split
  case isTrue hm => rw [overwrite_find, if_pos hm]
  case isFalse hm =>
    rw [List.find?_append,
      find_none_of_any_false m k (Bool.not_eq_true _ ▸ hm),
      List.find?_cons_of_pos _ (by simp)]
    rfl

lemma mapSet_find_other (m : List (String × TemplFunc)) (k k2 : String)
    (v : TemplFunc) (h : k2 ≠ k) :
    (mapSet m k v).find? (fun p => p.1 = k2) =
      m.find? (fun p => p.1 = k2) := by
  have hk : ¬(k = k2) := fun hh => h hh.symm
  unfold mapSet
  split
  case isTrue hm => exact overwrite_find_other m k k2 v h
  case isFalse hm =>
    rw [List.find?_append, List.find?_cons_of_neg _ (by simp [hk]),
      List.find?_nil]
    cases m.find? (fun p => p.1 = k2) <;> rfl

lemma foldl_mapSet_find_other (cf : List (String × TemplFunc)) (k : String)
    (h : ∀ p ∈ cf, p.1 ≠ k) : ∀ init : List (String × TemplFunc),
    (cf.foldl (fun m p => mapSet m p.1 p.2) init).find? (fun p => p.1 = k) =
      init.find? (fun p => p.1 = k) := by
  induction cf with
  | nil => intro init; rfl
  | cons q cf ih =>
    intro init
    have hq : q.1 ≠ k := h q (by simp)
    have hrest : ∀ p ∈ cf, p.1 ≠ k := fun p hp => h p (by simp [hp])
    rw [List.foldl_cons, ih hrest, mapSet_find_other init q.1 k q.2 hq.symm]

/-- A concrete custom template function used as a shadowing registration. -/
def shadowFn : GoVal → Except String String := fun _ => .ok "SHADOWED"

/-- C3 counterexample. The render function table is built with the two
fixed entries first and the custom functions overlaid afterwards, so a
custom function registered under the name `bind` shadows the binder
method: the table maps `bind` to the custom function, not to `bindFn`, and
the render output is the custom text with no argument bound. -/
theorem C3_counterexample :
    ((buildFuncMap [("bind", TemplFunc.custom shadowFn)]).find?
        (fun p => p.1 = "bind")).map Prod.snd = some (TemplFunc.custom shadowFn)
    ∧ ((buildFuncMap [("bind", TemplFunc.custom shadowFn)]).find?
        (fun p => p.1 = "bind")).map Prod.snd ≠ some TemplFunc.bindFn
    ∧ ((NewRenderer .postgres).AddFunc "bind"
        (TemplFunc.custom shadowFn)).FromStringWithDialect
        (.ok [TmplNode.call "bind" (.lit (.int 7))]) none .postgres
      = .returned "SHADOWED" (some []) none := by
  refine ⟨rfl, ?_, rfl⟩
  intro h
  exact TemplFunc.noConfusion (Option.some.inj h)

/-- C3 amended. The function table starts from the two fixed entries
`bind` and `identifier` and then overlays the custom functions, so the
built-ins hold only when no custom function is registered under those
names; a custom function registered under `bind` takes precedence over
the built-in. -/
theorem C3_amended_funcmap (cf : List (String × TemplFunc))
    (f : GoVal → Except String String)
    (h : ∀ p ∈ cf, p.1 ≠ "bind" ∧ p.1 ≠ "identifier") :
    ((buildFuncMap cf).find? (fun p => p.1 = "bind")).map Prod.snd
        = some TemplFunc.bindFn
    ∧ ((buildFuncMap cf).find? (fun p => p.1 = "identifier")).map Prod.snd
        = some TemplFunc.identifierFn
    ∧ ((buildFuncMap (mapSet cf "bind" (TemplFunc.custom f))).find?
        (fun p => p.1 = "bind")).map Prod.snd = some (TemplFunc.custom f) := by
  have hany : cf.any (fun p => p.1 = "bind") = false := by
    simp only [List.any_eq_false]
    intro p hp
    simp [(h p hp).1]
  refine ⟨?_, ?_, ?_⟩
  · unfold buildFuncMap
    rw [foldl_mapSet_find_other cf "bind" (fun p hp => (h p hp).1)]
    rfl
  · unfold buildFuncMap
    rw [foldl_mapSet_find_other cf "identifier" (fun p hp => (h p hp).2)]
    rfl
  · have hmap : mapSet cf "bind" (TemplFunc.custom f) =
        cf ++ [("bind", TemplFunc.custom f)] := by
      unfold mapSet
      rw [if_neg]
      simp [hany]
    rw [hmap]
    unfold buildFuncMap
    rw [List.foldl_append, List.foldl_cons, List.foldl_nil]
    exact mapSet_find_self _ _ _

theorem C3_witness :
    ((buildFuncMap []).find? (fun p => p.1 = "bind")).map Prod.snd
        = some TemplFunc.bindFn
    ∧ ((buildFuncMap []).find? (fun p => p.1 = "identifier")).map Prod.snd
        = some TemplFunc.identifierFn
    ∧ ((buildFuncMap (mapSet [] "bind" (TemplFunc.custom shadowFn))).find?
        (fun p => p.1 = "bind")).map Prod.snd
        = some (TemplFunc.custom shadowFn) :=
  C3_amended_funcmap [] shadowFn (by simp)

/-- C4. A string containing any character outside letters, digits,
underscore, and period makes `Identifier` fail with the panic-class
`IdentResult.panicked` carrying the offending text; inside a render the
panic aborts the whole render, which ends as `RenderOutcome.panicked` and
never as a `returned` triple, so no text, argument list, or ordinary error
value is returned. -/
theorem C4_invalid_identifier_aborts (d : Dialect) (s : String)
    (data : Option (List (String × GoVal)))
    (h : ∃ c ∈ s.data, isIdentChar c = false) :
    (NewQueryArgs d).Identifier (.str s) =
      (NewQueryArgs d, .panicked ("sqlrender: invalid identifier " ++ goQuote s))
    ∧ (NewRenderer d).FromStringWithDialect
        (.ok [TmplNode.call "identifier" (.lit (.str s))]) data d
      = .panicked ("sqlrender: invalid identifier " ++ goQuote s)
    ∧ ∀ t args e, (NewRenderer d).FromStringWithDialect
        (.ok [TmplNode.call "identifier" (.lit (.str s))]) data d
      ≠ .returned t args e := by
  have hne : s ≠ "" := by
    rcases h with ⟨c, hc, _⟩
    intro heq
    rw [heq] at hc
    simp at hc
  have hpat : identifierPattern s = false := by
    rcases h with ⟨c, hc, hcf⟩
    have : s.data.all isIdentChar = false := by
      rw [List.all_eq_false]
      exact ⟨c, hc, by simp [hcf]⟩
    simp [identifierPattern, this]
  have hid : (NewQueryArgs d).Identifier (.str s) =
      (NewQueryArgs d,
        .panicked ("sqlrender: invalid identifier " ++ goQuote s)) := by
    simp [QueryArgs.Identifier, hne, hpat]
  have hrender : (NewRenderer d).FromStringWithDialect
      (.ok [TmplNode.call "identifier" (.lit (.str s))]) data d
      = .panicked ("sqlrender: invalid identifier " ++ goQuote s) := by
    simp only [Renderer.FromStringWithDialect, NewRenderer, buildFuncMap,
      List.foldl_nil, execNodes, evalExpr, hid]
    rfl
  refine ⟨hid, hrender, ?_⟩
  intro t args e heq
  rw [hrender] at heq
  exact RenderOutcome.noConfusion heq

theorem C4_witness :
    (NewQueryArgs .postgres).Identifier (.str "users;DROP") =
      (NewQueryArgs .postgres,
        .panicked ("sqlrender: invalid identifier " ++ goQuote "users;DROP"))
    ∧ (NewRenderer .postgres).FromStringWithDialect
        (.ok [TmplNode.call "identifier" (.lit (.str "users;DROP"))]) none
        .postgres
      = .panicked ("sqlrender: invalid identifier " ++ goQuote "users;DROP")
    ∧ ∀ t args e, (NewRenderer .postgres).FromStringWithDialect
        (.ok [TmplNode.call "identifier" (.lit (.str "users;DROP"))]) none
        .postgres
      ≠ .returned t args e :=
  C4_invalid_identifier_aborts .postgres "users;DROP" none (by decide)

/-- A concrete custom template function that always returns an error. -/
def failFn : GoVal → Except String String := fun _ => .error "boom"

/-- C8. Whenever template expansion fails with an execution error, the
render returns the triple `("", nil, err)`: no partial rendered text and no
argument list; arguments already appended to the binder before the failure
point are discarded, the partial binder never being returned. -/
theorem C8_exec_error_discards (r : Renderer) (dialect : Dialect)
    (data : Option (List (String × GoVal))) (nodes : List TmplNode)
    (m : String)
    (h : execNodes (buildFuncMap r.customFuncs) (data.getD []) nodes
        (NewQueryArgs dialect) "" = .err m) :
    r.FromStringWithDialect (.ok nodes) data dialect =
      .returned "" none (some m)
    ∧ ∀ t as e, r.FromStringWithDialect (.ok nodes) data dialect ≠
        .returned t (some as) e := by
  have h1 : r.FromStringWithDialect (.ok nodes) data dialect =
      .returned "" none (some m) := by
    simp only [Renderer.FromStringWithDialect, h]
  refine ⟨h1, ?_⟩
  intro t as e heq
  rw [h1] at heq
  injection heq with e1 e2 e3
  exact Option.noConfusion e2

theorem C8_witness :
    ((NewRenderer .postgres).AddFunc "fail"
        (TemplFunc.custom failFn)).FromStringWithDialect
        (.ok [TmplNode.call "bind" (.lit (.int 1)),
          TmplNode.call "fail" (.lit .nilInterface)]) none .postgres
      = .returned "" none (some "boom")
    ∧ ∀ t as e, ((NewRenderer .postgres).AddFunc "fail"
        (TemplFunc.custom failFn)).FromStringWithDialect
        (.ok [TmplNode.call "bind" (.lit (.int 1)),
          TmplNode.call "fail" (.lit .nilInterface)]) none .postgres
      ≠ .returned t (some as) e :=
  C8_exec_error_discards
    ((NewRenderer .postgres).AddFunc "fail" (TemplFunc.custom failFn))
    .postgres none
    [TmplNode.call "bind" (.lit (.int 1)),
      TmplNode.call "fail" (.lit .nilInterface)]
    "boom" rfl

lemma searchLoop_eq_find (fs : List String) (name : String) :
    ∀ paths : List String,
    searchLoop fs name paths =
      (paths.find? (fun dir => decide (goPathJoin dir name ∈ fs))).map
        (fun dir => goPathJoin dir name) := by
  intro paths
  induction paths with
  | nil => rfl
  | cons dir rest ih =>
    by_cases hd : goPathJoin dir name ∈ fs
    · rw [searchLoop, List.find?_cons_of_pos _ (by simp [hd])]
      simp [hd]
    · rw [searchLoop, List.find?_cons_of_neg _ (by simp [hd])]
      simp [hd, ih]

/-- C9. Template-source resolution: a name that exists directly is used
as-is; otherwise the name is joined onto each search path in order and the
first existing join wins (the `find?` of the search-path list); when no
candidate exists the result is a not-found error containing the requested
name and the full ordered search-path list. The filesystem is the list of
paths at which a stat succeeds. -/
theorem C9_template_resolution (fs : List String) (r : Renderer)
    (name : String) :
    (name ∈ fs → Renderer.findTemplateFile fs r name = .ok name)
    ∧ (name ∉ fs →
        Renderer.findTemplateFile fs r name =
          match (r.searchPaths.find?
              (fun dir => decide (goPathJoin dir name ∈ fs))).map
              (fun dir => goPathJoin dir name) with
          | some full => .ok full
          | none => .error ("sqlrender: template " ++ goQuote name ++
              " not found in search paths: " ++
              goStringSliceV r.searchPaths)) := by
  constructor
  · intro h
    simp [Renderer.findTemplateFile, h]
  · intro h
    simp only [Renderer.findTemplateFile, if_neg h, searchLoop_eq_find]

theorem C9_witness :
    Renderer.findTemplateFile ["b/q.sql"]
        (((NewRenderer .mysql).AddSearchPath "a").AddSearchPath "b") "q.sql"
      = .ok "b/q.sql"
    ∧ Renderer.findTemplateFile ["direct.sql"] (NewRenderer .mysql)
        "direct.sql" = .ok "direct.sql"
    ∧ Renderer.findTemplateFile []
        ((NewRenderer .mysql).AddSearchPath "missing_dir") "missing.sql"
      = .error ("sqlrender: template " ++ goQuote "missing.sql" ++
          " not found in search paths: " ++ goStringSliceV ["missing_dir"]) :=
  ⟨(C9_template_resolution ["b/q.sql"]
      (((NewRenderer .mysql).AddSearchPath "a").AddSearchPath "b")
      "q.sql").2 (by decide),
    (C9_template_resolution ["direct.sql"] (NewRenderer .mysql)
      "direct.sql").1 (by decide),
    (C9_template_resolution []
      ((NewRenderer .mysql).AddSearchPath "missing_dir")
      "missing.sql").2 (by decide)⟩
